import Mathlib

/-!
Verification of the trading-dashboard market-data pipeline
(`backend/stock_service.py`, `backend/technical_indicators_service.py`).

Shallow embedding: bars carry exact rational prices, timestamps are
integers, the pandas/deque/dict operations are translated to `List`
operations.  Each Python function that a claim touches is embedded under
(near) its source name; separately named `spec…` definitions transcribe
the specification's wording where a claim compares code to spec.
-/

/-- One OHLCV candle.  Field `bopen` is the source's `open` column
(`open` is a Lean keyword). -/
structure Bar where
  date : ℤ
  bopen : ℚ
  high : ℚ
  low : ℚ
  close : ℚ
  volume : ℚ
deriving DecidableEq, Repr, Inhabited

/-- One bucket of `StockDataService._aggregate_hourly_candles`:
`bucket = data_list[i:i+target_hours]`, non-empty, first element `b`,
remainder `rest`.  Fields exactly as the Python dict literal:
`date`/`open` from `bucket[0]`, `high = max(c['high'] for c in bucket)`,
`low = min(...)`, `close = bucket[-1]['close']`,
`volume = sum(c['volume'] for c in bucket if c['volume'] > 0)`. -/
def aggBucket (b : Bar) (rest : List Bar) : Bar :=
  { date := b.date
    bopen := b.bopen
    high := rest.foldl (fun acc c => max acc c.high) b.high
    low := rest.foldl (fun acc c => min acc c.low) b.low
    close := (rest.getLast?.getD b).close
    volume := (b :: rest).foldl
      (fun acc c => acc + (if 0 < c.volume then c.volume else 0)) 0 }

/-- The `for i in range(0, len(data_list), target_hours)` loop of
`_aggregate_hourly_candles`: successive slices of size `n`. -/
def aggChunks (n : ℕ) : List Bar → List Bar
  | [] => []
  | x :: xs => aggBucket x (xs.take (n - 1)) :: aggChunks n (xs.drop (n - 1))
termination_by l => l.length
decreasing_by simp [List.length_drop]; omega

/-- `StockDataService._aggregate_hourly_candles(data, target_hours)`:
`target_hours <= 1` returns the input unchanged, otherwise the series is
re-bucketed; an empty input yields an empty frame. -/
def aggregate_hourly_candles (target_hours : ℤ) (data : List Bar) : List Bar :=
  if target_hours ≤ 1 then data else aggChunks target_hours.toNat data

/-- Reference bucket bar, transcribed from the specification's words for
`CandleAggregator.aggregate`: timestamp/open from the bucket's first bar,
close from its last, high the maximum of bucket highs, low the minimum of
bucket lows, volume the sum of bucket volumes with non-positive volumes
contributing 0. -/
def specBucketBar (c : List Bar) : Bar :=
  { date := (c.head?.getD default).date
    bopen := (c.head?.getD default).bopen
    high := (c.map Bar.high).max?.getD 0
    low := (c.map Bar.low).min?.getD 0
    close := (c.getLast?.getD default).close
    volume := (c.map (fun b => if 0 < b.volume then b.volume else 0)).sum }

/-- The specification's bucket partition: `ceil(len/factor)` consecutive
non-overlapping slices of size `factor` (the last possibly shorter). -/
def specBuckets (n : ℕ) (l : List Bar) : List (List Bar) :=
  (List.range ((l.length + n - 1) / n)).map (fun i => (l.drop (i * n)).take n)

/-- Reference resample, transcribed from the specification: identity for
`factor ≤ 1`, otherwise one synthetic bar per bucket, in input order. -/
def specResample (factor : ℤ) (l : List Bar) : List Bar :=
  if factor ≤ 1 then l else (specBuckets factor.toNat l).map specBucketBar

/-- A concrete three-bar series used by the witnesses. -/
def sampleBars : List Bar :=
  [⟨0, 1, 2, 0, 1, 5⟩, ⟨1, 1, 3, 1, 2, -4⟩, ⟨2, 2, 4, 1, 3, 7⟩]

/-- `RateLimiter` state: `calls` is the `deque` of admitted call
timestamps, oldest first. -/
structure RateLimiter where
  max_calls : ℕ
  window_seconds : ℚ
  calls : List ℚ
deriving DecidableEq, Repr

/-- `RateLimiter.can_make_call`: pop timestamps from the front while
`calls[0] <= now - window_seconds`, then admit (appending `now`) exactly
when fewer than `max_calls` remain; returns the decision and the updated
state. -/
def can_make_call (rl : RateLimiter) (now : ℚ) : Bool × RateLimiter :=
  let calls := rl.calls.dropWhile (fun t => decide (t ≤ now - rl.window_seconds))
  if calls.length < rl.max_calls then
    (true, { rl with calls := calls ++ [now] })
  else
    (false, { rl with calls := calls })

/-- The claim's wording of the limiter, for comparison: it evicts only
timestamps strictly older than `now - window_seconds`. -/
def specCanCallStrict (rl : RateLimiter) (now : ℚ) : Bool × RateLimiter :=
  let calls := rl.calls.dropWhile (fun t => decide (t < now - rl.window_seconds))
  if calls.length < rl.max_calls then
    (true, { rl with calls := calls ++ [now] })
  else
    (false, { rl with calls := calls })

/-- `StockDataService.price_cache`: a dict from ticker to
`{'data': payload, 'timestamp': storedAt}`.  Modelled as an association
list where the most recent store shadows older entries, exactly the
observable behaviour of dict assignment. -/
def PriceCache (α : Type) : Type := List (String × (α × ℚ))

/-- `StockDataService._cache_data`:
`price_cache[ticker] = {'data': data, 'timestamp': time.time()}`. -/
def cache_data {α : Type} (c : PriceCache α) (ticker : String) (data : α)
    (now : ℚ) : PriceCache α :=
  (ticker, (data, now)) :: c

/-- `StockDataService._is_cache_valid`: the entry must exist and
`cached_time and (time.time() - cached_time) < cache_ttl` must be truthy —
note the Python truthiness test on `cached_time` itself, which makes a
stored timestamp of exactly `0` invalid. -/
def is_cache_valid {α : Type} (ttl : ℚ) (c : PriceCache α) (ticker : String)
    (now : ℚ) : Bool :=
  match List.lookup ticker c with
  | none => false
  | some (_, cached_time) =>
      if cached_time = 0 then false else decide (now - cached_time < ttl)

/-- `StockDataService._get_cached_data`:
`price_cache[ticker]['data'] if _is_cache_valid(ticker) else None`.
The source reads but never mutates the cache here. -/
def get_cached_data {α : Type} (ttl : ℚ) (c : PriceCache α) (ticker : String)
    (now : ℚ) : Option α :=
  if is_cache_valid ttl c ticker now then (List.lookup ticker c).map Prod.fst
  else none

/-- Key of `TechnicalIndicatorsService.get_cache_key`:
`f"{symbol}_{period}_{now:%Y%m%d_%H%M}"`.  The strftime stamp identifies a
calendar minute, modelled as `⌊now / 60⌋` with `now` in epoch seconds. -/
def get_cache_key (symbol period : String) (now : ℚ) : String × String × ℤ :=
  (symbol, period, ⌊now / 60⌋)

/-- `TechnicalIndicatorsService.cache`: dict from cache key to
`{'data': payload, 'timestamp': storedAt}`. -/
def TisCache (α : Type) : Type := List ((String × String × ℤ) × (α × ℚ))

/-- The cache-store step at the end of
`TechnicalIndicatorsService.calculate_all_indicators`:
`cache[cache_key] = {'data': result, 'timestamp': now}` with
`cache_key = get_cache_key(symbol, period)` computed at store time. -/
def tis_store {α : Type} (c : TisCache α) (symbol period : String) (v : α)
    (now : ℚ) : TisCache α :=
  (get_cache_key symbol period now, (v, now)) :: c

/-- `TechnicalIndicatorsService.is_cache_valid`: key present and
`now - timestamp < cache_ttl` with `cache_ttl = 300`. -/
def tis_is_cache_valid {α : Type} (c : TisCache α)
    (key : String × String × ℤ) (now : ℚ) : Bool :=
  match List.lookup key c with
  | none => false
  | some (_, cache_time) => decide (now - cache_time < 300)

/-- The cache-lookup step at the head of `calculate_all_indicators`:
the key is rebuilt from the current minute, and the cached payload is
returned only when `is_cache_valid` holds for it. -/
def tis_lookup {α : Type} (c : TisCache α) (symbol period : String)
    (now : ℚ) : Option α :=
  let key := get_cache_key symbol period now
  if tis_is_cache_valid c key now then (List.lookup key c).map Prod.fst
  else none

/-- The specification's rate-limiter scenario
(`maxCalls = 3, windowSeconds = 60`): four calls at instant `t`, a fifth
61 seconds later; the list collects the five decisions. -/
def rlScenario (t : ℚ) : List Bool :=
  let r1 := can_make_call ⟨3, 60, []⟩ t
  let r2 := can_make_call r1.2 t
  let r3 := can_make_call r2.2 t
  let r4 := can_make_call r3.2 t
  let r5 := can_make_call r4.2 (t + 61)
  [r1.1, r2.1, r3.1, r4.1, r5.1]

/-- The five trading-style categories of `TimeFrameAnalyzer`. -/
inductive Category where
  | scalping
  | intraday
  | swing
  | position
  | investment
deriving DecidableEq, Repr

/-- The `periods` lists of `TimeFrameAnalyzer.timeframe_configs`, in dict
iteration (insertion) order, as scanned by `classify_timeframe`'s direct
mapping loop. -/
def timeframe_configs_periods : List (Category × List String) :=
  [(Category.scalping, ["1M", "2M", "3M", "5M", "15M"]),
   (Category.intraday, ["30M", "1H", "2H", "4H"]),
   (Category.swing, ["1D", "2D", "3D", "5D", "1W"]),
   (Category.position, ["2W", "1M", "2M", "3M", "6M"]),
   (Category.investment, ["1Y", "2Y", "3Y", "5Y"])]

/-- Digit run of a Python `int(...)` literal: `none` when empty or when a
non-digit occurs (Python raises `ValueError` there). -/
def pyIntDigits (l : List Char) : Option ℕ :=
  if l.isEmpty then none
  else
    l.foldl
      (fun acc c => acc.bind
        (fun n => if c.isDigit then some (10 * n + (c.toNat - 48)) else none))
      (some 0)

/-- Python `int(s)` on the magnitude substrings `classify_timeframe`
parses: optional sign followed by at least one digit; `none` models the
`ValueError` raised on anything else. -/
def pyInt (s : String) : Option ℤ :=
  match s.data with
  | '-' :: rest => (pyIntDigits rest).map (fun n => -(n : ℤ))
  | '+' :: rest => (pyIntDigits rest).map (fun n => (n : ℤ))
  | l => (pyIntDigits l).map (fun n => (n : ℤ))

/-- Python `period_key.upper()` on the ASCII period keys, written over
the character list so it evaluates in the kernel. -/
def pyUpper (s : String) : String :=
  String.mk (s.data.map Char.toUpper)

/-- Python `s.endswith(c)` for a single character. -/
def strEndsWith (s : String) (c : Char) : Bool :=
  s.data.getLast? == some c

/-- Python `s[:-1]`. -/
def strDropLast (s : String) : String :=
  String.mk s.data.dropLast

/-- `TimeFrameAnalyzer.classify_timeframe`: uppercase the key, try the
direct table, else parse the trailing unit letter and leading magnitude
and apply the heuristic thresholds; `none` models the uncaught
`ValueError` from `int(period_upper[:-1])`. -/
def classify_timeframe (period_key : String) : Option Category :=
  let period_upper := pyUpper period_key
  match timeframe_configs_periods.find? (fun p => p.2.contains period_upper) with
  | some p => some p.1
  | none =>
    if strEndsWith period_upper 'M' then
      (pyInt (strDropLast period_upper)).map (fun minutes =>
        if minutes ≤ 15 then Category.scalping
        else if minutes ≤ 240 then Category.intraday
        else Category.swing)
    else if strEndsWith period_upper 'H' then
      (pyInt (strDropLast period_upper)).map (fun hours =>
        if hours ≤ 4 then Category.intraday else Category.swing)
    else if strEndsWith period_upper 'D' then
      (pyInt (strDropLast period_upper)).map (fun days =>
        if days ≤ 7 then Category.swing else Category.position)
    else if strEndsWith period_upper 'W' then
      (pyInt (strDropLast period_upper)).map (fun weeks =>
        if weeks ≤ 4 then Category.swing else Category.position)
    else if strEndsWith period_upper 'Y' then some Category.investment
    else some Category.swing

/-- One value of the `optimized_params` dict literal in
`TimeFrameAnalyzer.get_optimized_params`.  `aggregate` carries the
optional `aggregate_minutes`/`_hours`/`_days`/`_weeks`/`_months` entry. -/
structure OptParams where
  period : String
  interval : String
  category : Category
  data_points : ℕ
  optimization_level : String
  aggregate : Option (String × ℕ)
deriving DecidableEq, Repr

/-- The `optimized_params` dict literal, entry for entry in source order.
The Python literal repeats the keys `'1M'`, `'2M'` and `'3M'` (once in
the scalping block, again in the position block); the list keeps both
occurrences so dict semantics can be applied faithfully. -/
def optimized_params_table : List (String × OptParams) :=
  [("1M", ⟨"12h", "1m", Category.scalping, 195, "maximum", none⟩),
   ("2M", ⟨"1d", "1m", Category.scalping, 390, "maximum",
      some ("aggregate_minutes", 2)⟩),
   ("3M", ⟨"1d", "1m", Category.scalping, 260, "maximum",
      some ("aggregate_minutes", 3)⟩),
   ("5M", ⟨"1d", "5m", Category.scalping, 144, "high", none⟩),
   ("15M", ⟨"3d", "15m", Category.scalping, 224, "high", none⟩),
   ("30M", ⟨"5d", "30m", Category.intraday, 240, "high", none⟩),
   ("1H", ⟨"5d", "1h", Category.intraday, 120, "medium", none⟩),
   ("2H", ⟨"10d", "1h", Category.intraday, 120, "medium",
      some ("aggregate_hours", 2)⟩),
   ("3H", ⟨"15d", "1h", Category.intraday, 120, "medium",
      some ("aggregate_hours", 3)⟩),
   ("4H", ⟨"20d", "1h", Category.intraday, 120, "medium",
      some ("aggregate_hours", 4)⟩),
   ("6H", ⟨"1mo", "1h", Category.intraday, 120, "medium",
      some ("aggregate_hours", 6)⟩),
   ("1D", ⟨"2mo", "1d", Category.swing, 60, "medium", none⟩),
   ("2D", ⟨"3mo", "1d", Category.swing, 45, "medium",
      some ("aggregate_days", 2)⟩),
   ("3D", ⟨"4mo", "1d", Category.swing, 40, "medium",
      some ("aggregate_days", 3)⟩),
   ("5D", ⟨"6mo", "1d", Category.swing, 36, "low",
      some ("aggregate_days", 5)⟩),
   ("1W", ⟨"1y", "1wk", Category.swing, 52, "low", none⟩),
   ("2W", ⟨"6mo", "1wk", Category.position, 26, "low",
      some ("aggregate_weeks", 2)⟩),
   ("1M", ⟨"1y", "1wk", Category.position, 52, "low", none⟩),
   ("2M", ⟨"2y", "1mo", Category.position, 24, "minimal",
      some ("aggregate_months", 2)⟩),
   ("3M", ⟨"3y", "1mo", Category.position, 36, "minimal", none⟩),
   ("6M", ⟨"6mo", "1d", Category.position, 180, "minimal", none⟩),
   ("1Y", ⟨"1y", "1wk", Category.investment, 52, "high",
      some ("aggregate_weeks", 1)⟩),
   ("2Y", ⟨"2y", "1wk", Category.investment, 104, "medium",
      some ("aggregate_weeks", 2)⟩),
   ("3Y", ⟨"3y", "1mo", Category.investment, 36, "medium",
      some ("aggregate_months", 1)⟩),
   ("5Y", ⟨"5y", "1mo", Category.investment, 60, "minimal",
      some ("aggregate_months", 1)⟩)]

/-- Python dict lookup over an ordered literal with possibly repeated
keys: the value of the last occurrence wins, as in a dict literal. -/
def dictGet {α : Type} (l : List (String × α)) (k : String) : Option α :=
  (l.reverse.find? (fun p => p.1 == k)).map Prod.snd

/-- `data_window` of each `timeframe_configs` entry. -/
def data_window : Category → String
  | Category.scalping => "1d"
  | Category.intraday => "5d"
  | Category.swing => "1mo"
  | Category.position => "1y"
  | Category.investment => "matched"

/-- `base_interval` of each `timeframe_configs` entry. -/
def base_interval : Category → String
  | Category.scalping => "1m"
  | Category.intraday => "1h"
  | Category.swing => "1d"
  | Category.position => "1wk"
  | Category.investment => "1wk"

/-- `TimeFrameAnalyzer.get_optimized_params`: classify first (so a
classification error propagates), then look the uppercased key up in the
`optimized_params` dict, falling back to the category's defaults. -/
def get_optimized_params (period_key : String) : Option OptParams :=
  (classify_timeframe period_key).map (fun category =>
    match dictGet optimized_params_table (pyUpper period_key) with
    | some p => p
    | none =>
        { period := data_window category
          interval := base_interval category
          category := category
          data_points := 60
          optimization_level := "medium"
          aggregate := none })

/-- The per-category fields of `TimeFrameAnalyzer.indicator_params` that
feed the claimed outputs of `calculate_technical_indicators` (RSI,
SMA/trend, MACD and the signal synthesis).  The bundle's remaining fields
(bollinger, stochastic, ADX, volume) drive outputs no claim touches. -/
structure IndicatorParams where
  rsi_period : ℕ
  rsi_overbought : ℚ
  rsi_oversold : ℚ
  sma_fast : ℕ
  sma_slow : ℕ
  ema_fast : ℕ
  ema_slow : ℕ
  macd_fast : ℕ
  macd_slow : ℕ
  macd_signal : ℕ
deriving DecidableEq, Repr

/-- `TimeFrameAnalyzer.indicator_params`, per category. -/
def indicator_params : Category → IndicatorParams
  | Category.scalping => ⟨7, 80, 20, 3, 8, 2, 5, 5, 13, 3⟩
  | Category.intraday => ⟨14, 70, 30, 9, 21, 8, 21, 12, 26, 9⟩
  | Category.swing => ⟨21, 65, 35, 20, 50, 12, 26, 12, 26, 9⟩
  | Category.position => ⟨28, 60, 40, 50, 200, 50, 200, 19, 39, 9⟩
  | Category.investment => ⟨50, 55, 45, 100, 300, 100, 300, 26, 52, 18⟩

/-- `df['Close'].diff()`: `none` is the leading NaN. -/
def diffs : List ℚ → List (Option ℚ)
  | [] => []
  | c :: rest => none :: (rest.zip (c :: rest)).map (fun p => some (p.1 - p.2))

/-- `delta.where(delta > 0, 0)`: the NaN fails the comparison and is
replaced by 0, like any non-positive delta. -/
def gainsList (closes : List ℚ) : List ℚ :=
  (diffs closes).map (fun o =>
    match o with
    | none => 0
    | some d => if 0 < d then d else 0)

/-- `-delta.where(delta < 0, 0)`. -/
def lossList (closes : List ℚ) : List ℚ :=
  (diffs closes).map (fun o =>
    match o with
    | none => 0
    | some d => if d < 0 then -d else 0)

/-- `series.rolling(window=w).mean()` cell by cell: `accRev` is the
reversed prefix of already-seen values; a cell is NaN (`none`) until the
window fills. -/
def rollingMeanAux (w : ℕ) (accRev : List ℚ) : List ℚ → List (Option ℚ)
  | [] => []
  | x :: rest =>
      (if w ≤ (x :: accRev).length
       then some (((x :: accRev).take w).sum / w)
       else none)
        :: rollingMeanAux w (x :: accRev) rest

/-- `series.rolling(window=w).mean()`. -/
def rollingMean (w : ℕ) (xs : List ℚ) : List (Option ℚ) :=
  rollingMeanAux w [] xs

/-- One cell of `rs = gain/loss; rsi = 100 - 100/(1+rs)` under float
semantics: NaN propagates, `loss = 0 < gain` gives `rs = +inf` hence
`rsi = 100`, and `0/0` is NaN. -/
def rsiCell (g l : Option ℚ) : Option ℚ :=
  match g, l with
  | some g, some l =>
      if l = 0 then (if g = 0 then none else some 100)
      else some (100 - 100 / (1 + g / l))
  | _, _ => none

/-- The RSI series of `calculate_technical_indicators` before
`fillna`: rolling means of gains and losses combined cell-wise. -/
def rsiRaw (closes : List ℚ) (w : ℕ) : List (Option ℚ) :=
  List.zipWith rsiCell (rollingMean w (gainsList closes))
    (rollingMean w (lossList closes))

/-- `rsi.fillna(50.0).tolist()`. -/
def rsiSeries (closes : List ℚ) (w : ℕ) : List ℚ :=
  (rsiRaw closes w).map (fun o => o.getD 50)

/-- `safe_float(rsi.iloc[-1], 50.0) if not rsi.empty else 50.0`. -/
def rsiLatest (closes : List ℚ) (w : ℕ) : ℚ :=
  match (rsiRaw closes w).getLast? with
  | some (some x) => x
  | _ => 50

/-- `safe_float(sma.iloc[-1], 0.0) if not sma.empty else 0.0`: the NaN of
an unfilled window falls back to `0`. -/
def smaLatest (closes : List ℚ) (w : ℕ) : ℚ :=
  match (rollingMean w closes).getLast? with
  | some (some x) => x
  | _ => 0

/-- `series.ewm(span=s).mean()` (pandas default `adjust=True`) through
the recurrences `num_i = β·num_{i-1} + x_i`, `den_i = β·den_{i-1} + 1`
with `β = 1 - 2/(span+1)`. -/
def ewmAux (β num den : ℚ) : List ℚ → List ℚ
  | [] => []
  | x :: rest =>
      ((β * num + x) / (β * den + 1))
        :: ewmAux β (β * num + x) (β * den + 1) rest

/-- `series.ewm(span=s).mean()`. -/
def ewm_mean (span : ℕ) (xs : List ℚ) : List ℚ :=
  ewmAux (1 - 2 / ((span : ℚ) + 1)) 0 0 xs

/-- The classification strings appearing in `indicators['latest']`. -/
inductive Sig where
  | bullish
  | bearish
  | oversold
  | overbought
  | neutral
deriving DecidableEq, Repr

/-- The claimed outputs of `calculate_technical_indicators`: latest
values, the RSI series, the per-signal classifications and the
synthesized overall signal. -/
structure Indicators where
  rsi_latest : ℚ
  rsi_series : List ℚ
  rsi_signal : Sig
  sma_fast_latest : ℚ
  sma_slow_latest : ℚ
  sma_trend : Sig
  ema_fast_latest : ℚ
  ema_slow_latest : ℚ
  macd_line_latest : ℚ
  macd_signal_latest : ℚ
  macd_histogram_latest : ℚ
  macd_signal_type : Sig
  overall_signal : Sig
  signal_strength : ℚ
deriving Repr

/-- Result of `calculate_technical_indicators`:
`{'error': 'Insufficient data for technical analysis'}` or the computed
indicator payload. -/
inductive CalcResult where
  | insufficientData
  | ok (r : Indicators)

/-- `calculate_technical_indicators(df, timeframe_category)` restricted
to the close-price-driven outputs the claims are about.  The 10-bar
guard precedes everything; category defaulting to `'swing'` vanishes
because `Category` is a closed enum.  Comparison senses are kept exactly:
`rsi_current > overbought`, `sma_fast > sma_slow`,
`macd_line > macd_signal`. -/
def calculate_technical_indicators (closes : List ℚ)
    (timeframe_category : Category) : CalcResult :=
  if closes.length < 10 then CalcResult.insufficientData
  else
    let params := indicator_params timeframe_category
    let rsi_latest := rsiLatest closes params.rsi_period
    let rsi_signal :=
      if params.rsi_overbought < rsi_latest then Sig.overbought
      else if rsi_latest < params.rsi_oversold then Sig.oversold
      else Sig.neutral
    let sma_fast_latest := smaLatest closes params.sma_fast
    let sma_slow_latest := smaLatest closes params.sma_slow
    let sma_trend :=
      if sma_slow_latest < sma_fast_latest then Sig.bullish else Sig.bearish
    let macd_line := List.zipWith (fun a b => a - b)
      (ewm_mean params.macd_fast closes) (ewm_mean params.macd_slow closes)
    let macd_signal := ewm_mean params.macd_signal macd_line
    let macd_line_latest := macd_line.getLast?.getD 0
    let macd_signal_latest := macd_signal.getLast?.getD 0
    let macd_signal_type :=
      if macd_signal_latest < macd_line_latest then Sig.bullish
      else Sig.bearish
    let signals :=
      (if rsi_signal ≠ Sig.neutral then [rsi_signal] else [])
        ++ [sma_trend] ++ [macd_signal_type]
    let bullish_signals :=
      signals.countP (fun s => s == Sig.bullish || s == Sig.oversold)
    let bearish_signals :=
      signals.countP (fun s => s == Sig.bearish || s == Sig.overbought)
    let overall_signal :=
      if bearish_signals < bullish_signals then Sig.bullish
      else if bullish_signals < bearish_signals then Sig.bearish
      else Sig.neutral
    CalcResult.ok
      { rsi_latest := rsi_latest
        rsi_series := rsiSeries closes params.rsi_period
        rsi_signal := rsi_signal
        sma_fast_latest := sma_fast_latest
        sma_slow_latest := sma_slow_latest
        sma_trend := sma_trend
        ema_fast_latest := (ewm_mean params.ema_fast closes).getLast?.getD 0
        ema_slow_latest := (ewm_mean params.ema_slow closes).getLast?.getD 0
        macd_line_latest := macd_line_latest
        macd_signal_latest := macd_signal_latest
        macd_histogram_latest :=
          (List.zipWith (fun a b => a - b) macd_line macd_signal).getLast?.getD 0
        macd_signal_type := macd_signal_type
        overall_signal := overall_signal
        signal_strength :=
          if signals.isEmpty then 0
          else ((max bullish_signals bearish_signals : ℕ) : ℚ) / signals.length }

/-- Projection: the latest RSI of a successful computation. -/
def rsiLatestOf : CalcResult → Option ℚ
  | CalcResult.insufficientData => none
  | CalcResult.ok r => some r.rsi_latest

/-- Projection: the RSI series of a successful computation. -/
def rsiSeriesOf : CalcResult → List ℚ
  | CalcResult.insufficientData => []
  | CalcResult.ok r => r.rsi_series

/-- The claim's Wilder-style RSI, transcribed from the specification:
seed the averages with the plain mean of the first `w` gains/losses, then
blend each later bar in at weight `1/w`
(`avg ← avg·(w-1)/w + x/w`); `rs = avgGain/avgLoss`,
`rsi = 100 - 100/(1+rs)`, guard `avgLoss = 0 → 100`. -/
def wilderRsiLatest (closes : List ℚ) (w : ℕ) : Option ℚ :=
  match closes with
  | [] => none
  | c :: rest =>
    let deltas := (rest.zip (c :: rest)).map (fun p => p.1 - p.2)
    let gains := deltas.map (fun d => if 0 < d then d else 0)
    let losses := deltas.map (fun d => if d < 0 then -d else 0)
    if w = 0 ∨ deltas.length < w then none
    else
      let gAvg := (gains.drop w).foldl
        (fun a x => a * ((w : ℚ) - 1) / w + x / w) ((gains.take w).sum / w)
      let lAvg := (losses.drop w).foldl
        (fun a x => a * ((w : ℚ) - 1) / w + x / w) ((losses.take w).sum / w)
      some (if lAvg = 0 then 100 else 100 - 100 / (1 + gAvg / lAvg))

/-- Gain of bar `i` per the amended claim: positive part of the delta
into bar `i`, with the first bar's undefined delta counting as 0. -/
def specGainAt (closes : List ℚ) (i : ℕ) : ℚ :=
  if i = 0 then 0
  else
    let d := closes.getD i 0 - closes.getD (i - 1) 0
    if 0 < d then d else 0

/-- Loss magnitude of bar `i` per the amended claim. -/
def specLossAt (closes : List ℚ) (i : ℕ) : ℚ :=
  if i = 0 then 0
  else
    let d := closes.getD i 0 - closes.getD (i - 1) 0
    if d < 0 then -d else 0

/-- Plain arithmetic mean of `f` over the trailing window of `w` bars
ending at `i`; undefined until the window fills. -/
def specAvgAt (f : ℕ → ℚ) (w i : ℕ) : Option ℚ :=
  if w ≤ i + 1 then
    some ((((List.range w).map (fun j => f (i - j))).sum) / w)
  else none

/-- RSI at bar `i` per the amended claim: simple trailing means of gains
and losses, `rs = avgGain/avgLoss`, `rsi = 100 - 100/(1+rs)`, guard
`avgLoss = 0` with a positive gain → 100, both averages zero →
undefined (later filled with the neutral 50). -/
def specRsiAt (closes : List ℚ) (w i : ℕ) : Option ℚ :=
  match specAvgAt (specGainAt closes) w i, specAvgAt (specLossAt closes) w i with
  | some g, some l =>
      if l = 0 then (if g = 0 then none else some 100)
      else some (100 - 100 / (1 + g / l))
  | _, _ => none

/-- The amended claim's RSI series, index-aligned with the input. -/
def specRsiSeries (closes : List ℚ) (w : ℕ) : List (Option ℚ) :=
  (List.range closes.length).map (specRsiAt closes w)

/-- The specification's vote list: the RSI signal participates only when
it is oversold or overbought, then the SMA trend, then the MACD type. -/
def specVotes (rsiSig smaTrend macdSig : Sig) : List Sig :=
  (if rsiSig = Sig.oversold ∨ rsiSig = Sig.overbought then [rsiSig] else [])
    ++ [smaTrend, macdSig]

/-- The specification's bullish vote count over a vote list. -/
def specBullishVotes (votes : List Sig) : ℕ :=
  votes.countP (fun s => s == Sig.bullish || s == Sig.oversold)

/-- The specification's bearish vote count. -/
def specBearishVotes (votes : List Sig) : ℕ :=
  votes.countP (fun s => s == Sig.bearish || s == Sig.overbought)

/-- The specification's overall signal from a vote list. -/
def specOverall (votes : List Sig) : Sig :=
  if specBearishVotes votes < specBullishVotes votes then Sig.bullish
  else if specBullishVotes votes < specBearishVotes votes then Sig.bearish
  else Sig.neutral

/-- The specification's signal strength: the winning vote count over the
total votes considered, `0` when no votes were cast. -/
def specStrength (votes : List Sig) : ℚ :=
  if votes.length = 0 then 0
  else ((max (specBullishVotes votes) (specBearishVotes votes) : ℕ) : ℚ)
    / votes.length

/-- Ten concrete closing prices used by witnesses and counterexamples. -/
def closes10 : List ℚ := [1, 2, 2, 1, 5, 3, 3, 4, 2, 6]

/-- Five concrete closing prices, below the 10-bar floor. -/
def closes5 : List ℚ := [1, 2, 3, 4, 5]

/-- The concrete indicator record computed from `closes10` under the
swing parameters, used by the C9 witness. -/
def indicators10 : Indicators :=
  match calculate_technical_indicators closes10 Category.swing with
  | CalcResult.ok r => r
  | CalcResult.insufficientData =>
      { rsi_latest := 0, rsi_series := [], rsi_signal := Sig.neutral
        sma_fast_latest := 0, sma_slow_latest := 0, sma_trend := Sig.bearish
        ema_fast_latest := 0, ema_slow_latest := 0, macd_line_latest := 0
        macd_signal_latest := 0, macd_histogram_latest := 0
        macd_signal_type := Sig.bearish, overall_signal := Sig.neutral
        signal_strength := 0 }

lemma getLast?_cons_getD (a : Bar) (l : List Bar) :
    (a :: l).getLast? = some (l.getLast?.getD a) := by
  induction l generalizing a with
  | nil => rfl
  | cons b t ih => rw [List.getLast?_cons_cons, ih b]; rfl

lemma specBucketBar_cons (x : Bar) (t : List Bar) :
    specBucketBar (x :: t) = aggBucket x t := by
  unfold specBucketBar aggBucket
  simp only [Bar.mk.injEq]
  refine ⟨rfl, rfl, ?_, ?_, ?_, ?_⟩
  · show ((x :: t).map Bar.high).max?.getD 0 = _
    rw [List.map_cons]
    show ((t.map Bar.high).foldl max x.high) = _
    rw [List.foldl_map]
  · show ((x :: t).map Bar.low).min?.getD 0 = _
    rw [List.map_cons]
    show ((t.map Bar.low).foldl min x.low) = _
    rw [List.foldl_map]
  · rw [getLast?_cons_getD]; rfl
  · rw [List.sum_eq_foldl, List.foldl_map]

lemma specBuckets_nil (n : ℕ) : specBuckets n [] = [] := by
  unfold specBuckets
  simp only [List.length_nil]
  have h : (0 + n - 1) / n = 0 := by
    rcases Nat.eq_zero_or_pos n with h | h
    · subst h; rfl
    · exact Nat.div_eq_of_lt (by omega)
  rw [h]; rfl

lemma specBuckets_cons (n : ℕ) (hn : 1 ≤ n) (x : Bar) (xs : List Bar) :
    specBuckets n (x :: xs)
      = (x :: xs.take (n - 1)) :: specBuckets n (xs.drop (n - 1)) := by
  have hN : ((x :: xs).length + n - 1) / n
      = ((xs.drop (n - 1)).length + n - 1) / n + 1 := by
    rw [List.length_drop, List.length_cons]
    rcases le_or_lt (n - 1) xs.length with h | h
    · have h1 : xs.length - (n - 1) + n - 1 = xs.length - (n - 1) + (n - 1) := by
        omega
      have h3 : xs.length + 1 + n - 1 = xs.length + n := by omega
      rw [h3, h1, Nat.sub_add_cancel h, Nat.add_div_right _ (by omega)]
    · have h1 : xs.length - (n - 1) + n - 1 = n - 1 := by omega
      have h2 : (n - 1) / n = 0 := Nat.div_eq_of_lt (by omega)
      have h3 : xs.length + 1 + n - 1 = xs.length + n := by omega
      have h4 : xs.length / n = 0 := Nat.div_eq_of_lt (by omega)
      rw [h3, h1, h2, Nat.add_div_right _ (by omega), h4]
  unfold specBuckets
  rw [hN, List.range_succ_eq_map, List.map_cons, List.map_map]
  congr 1
  · show ((x :: xs).drop (0 * n)).take n = x :: xs.take (n - 1)
    cases n with
    | zero => omega
    | succ m =>
      rw [Nat.zero_mul, List.drop_zero, List.take_succ_cons]
      simp
  · apply List.map_congr_left
    intro i _
    show ((x :: xs).drop (Nat.succ i * n)).take n
        = (((xs.drop (n - 1)).drop (i * n)).take n)
    rw [List.drop_drop]
    have h1 : Nat.succ i * n = (n - 1 + i * n) + 1 := by
      rw [Nat.succ_mul]; omega
    rw [h1, List.drop_succ_cons]

lemma aggChunks_eq_spec (n : ℕ) (hn : 1 ≤ n) (l : List Bar) :
    aggChunks n l = (specBuckets n l).map specBucketBar := by
  have H : ∀ (m : ℕ) (l : List Bar), l.length ≤ m →
      aggChunks n l = (specBuckets n l).map specBucketBar := by
    intro m
    induction m with
    | zero =>
      intro l hl
      have hnil : l = [] := by
        cases l with
        | nil => rfl
        | cons a t => simp at hl
      subst hnil
      rw [aggChunks, specBuckets_nil]; rfl
    | succ m ih =>
      intro l hl
      cases l with
      | nil => rw [aggChunks, specBuckets_nil]; rfl
      | cons x xs =>
        rw [aggChunks, specBuckets_cons n hn, List.map_cons, specBucketBar_cons]
        congr 1
        refine ih _ ?_
        rw [List.length_drop]
        simp at hl
        omega
  exact H l.length l le_rfl

lemma aggChunks_length (n : ℕ) (hn : 1 ≤ n) (l : List Bar) :
    (aggChunks n l).length = (l.length + n - 1) / n := by
  rw [aggChunks_eq_spec n hn l]
  unfold specBuckets
  rw [List.length_map, List.length_map, List.length_range]

/-- C1: `_aggregate_hourly_candles` agrees with the specification's
reference resample for every series and factor: identity for `factor ≤ 1`
(including empty input), and for `factor ≥ 2` one spec-described bar per
consecutive bucket, with output length `ceil(len/factor)`. -/
theorem aggregate_matches_spec_resample (factor : ℤ) (data : List Bar) :
    aggregate_hourly_candles factor data = specResample factor data ∧
    (factor ≤ 1 → aggregate_hourly_candles factor data = data) ∧
    (2 ≤ factor →
      (aggregate_hourly_candles factor data).length
        = (data.length + factor.toNat - 1) / factor.toNat) := by
  refine ⟨?_, ?_, ?_⟩
  · unfold aggregate_hourly_candles specResample
    split
    · rfl
    · rename_i h
      exact aggChunks_eq_spec _ (by omega) _
  · intro h
    unfold aggregate_hourly_candles
    rw [if_pos h]
  · intro h
    unfold aggregate_hourly_candles
    rw [if_neg (by omega)]
    exact aggChunks_length _ (by omega) _

/-- Witness for C1 at `factor = 2` on a concrete three-bar series. -/
theorem aggregate_matches_spec_resample_witness :
    (aggregate_hourly_candles 2 sampleBars).length
      = (sampleBars.length + (2 : ℤ).toNat - 1) / (2 : ℤ).toNat :=
  (aggregate_matches_spec_resample 2 sampleBars).2.2 (by decide)

/-- C2 (amended): each `can_make_call` first evicts timestamps at or
before `now - window_seconds` (i.e. at least a full window old), then
admits and records `now` exactly when the remaining count is below
`max_calls`, otherwise refuses without recording; and the 3-in-60
scenario behaves as specified. -/
theorem can_make_call_amended_spec (rl : RateLimiter) (now : ℚ) :
    ((can_make_call rl now).1 = true ↔
      (rl.calls.dropWhile (fun t => decide (t ≤ now - rl.window_seconds))).length
        < rl.max_calls) ∧
    ((can_make_call rl now).1 = true →
      (can_make_call rl now).2.calls
        = rl.calls.dropWhile (fun t => decide (t ≤ now - rl.window_seconds))
            ++ [now]) ∧
    ((can_make_call rl now).1 = false →
      (can_make_call rl now).2.calls
        = rl.calls.dropWhile (fun t => decide (t ≤ now - rl.window_seconds))) ∧
    (∀ t : ℚ, rlScenario t = [true, true, true, false, true]) := by
  refine ⟨?_, ?_, ?_, ?_⟩
  · simp only [can_make_call]
    split <;> simp_all
  · simp only [can_make_call]
    split <;> simp_all
  · simp only [can_make_call]
    split <;> simp_all
  · intro t
    have h1 : ¬ (t ≤ t - 60) := by linarith
    have h2 : t ≤ t + 61 - 60 := by linarith
    simp [rlScenario, can_make_call, List.dropWhile, h1, h2]

/-- Witness for C2: the concrete scenario decisions at `t = 5`. -/
theorem can_make_call_amended_spec_witness :
    rlScenario 5 = [true, true, true, false, true] :=
  (can_make_call_amended_spec ⟨3, 60, []⟩ 0).2.2.2 5

/-- Counterexample for C2 as stated: after one admitted call at time 0
with `maxCalls = 1, windowSeconds = 60`, a call at time 60 is admitted by
the code (it evicts the timestamp that is exactly one window old), while
the claim's strict "older than `now - windowSeconds`" eviction would
refuse it. -/
theorem can_make_call_counterexample :
    (can_make_call ((can_make_call ⟨1, 60, []⟩ 0).2) 60).1 = true ∧
    (specCanCallStrict ((specCanCallStrict ⟨1, 60, []⟩ 0).2) 60).1 = false := by
  have h2 : (0 : ℚ) ≤ 60 - 60 := by norm_num
  have h3 : ¬ ((0 : ℚ) < 60 - 60) := by norm_num
  constructor
  · simp [can_make_call, List.dropWhile, h2]
  · simp [specCanCallStrict, List.dropWhile, h3]

/-- C3 (amended): provided the store time is not the Python-falsy `0`,
a `get` after `set` hits exactly when `now - storedAt < ttl` and misses
otherwise, and `set` overwrites the entry under the same key.  (`get`
reads but never mutates the cache, so expired entries stay stored.) -/
theorem cache_ttl_spec {α : Type} (ttl : ℚ) (c : PriceCache α) (k : String)
    (v : α) (t tp : ℚ) (ht : t ≠ 0) :
    (get_cached_data ttl (cache_data c k v t) k tp
        = if tp - t < ttl then some v else none) ∧
    List.lookup k (cache_data c k v t) = some (v, t) := by
  have hl : List.lookup k (cache_data c k v t) = some (v, t) := by
    simp [cache_data, List.lookup]
  refine ⟨?_, hl⟩
  unfold get_cached_data is_cache_valid
  rw [hl]
  simp only [ht, if_false]
  by_cases h : tp - t < ttl <;> simp [h, hl]

/-- Witness for C3 at `ttl = 60`, store at `t = 1`, lookup at `t' = 2`. -/
theorem cache_ttl_spec_witness :
    (get_cached_data (60 : ℚ) (cache_data ([] : PriceCache ℚ) "A" 5 1) "A" 2
        = if (2 : ℚ) - 1 < 60 then some 5 else none) ∧
    List.lookup "A" (cache_data ([] : PriceCache ℚ) "A" 5 1) = some (5, 1) :=
  cache_ttl_spec 60 [] "A" 5 1 2 (by norm_num)

/-- Counterexample for C3 as stated: a value stored at time `t = 0` is
never returned, even strictly inside the TTL, because
`_is_cache_valid` tests the stored timestamp for truthiness
(`cached_time and ...`) and `0.0` is falsy. -/
theorem cache_zero_timestamp_counterexample :
    get_cached_data (60 : ℚ) (cache_data ([] : PriceCache ℚ) "AAPL" 5 0)
        "AAPL" 1 = none ∧
    (1 : ℚ) - 0 < 60 := by
  constructor
  · rfl
  · norm_num

/-- C10: the `TechnicalIndicatorsService` cache key embeds the current
calendar minute, so a stored payload is unreachable from any lookup in a
different minute: the lookup behaves as if the store had not happened,
and against an otherwise empty cache it is a miss — even though the
configured TTL is 300 seconds. -/
theorem tis_cache_same_minute_only {α : Type} (c : TisCache α)
    (symbol period : String) (v : α) (t0 t1 : ℚ)
    (hm : ⌊t0 / 60⌋ ≠ ⌊t1 / 60⌋) :
    tis_lookup (tis_store c symbol period v t0) symbol period t1
      = tis_lookup c symbol period t1 ∧
    tis_lookup (tis_store ([] : TisCache α) symbol period v t0)
      symbol period t1 = none := by
  have hkey : get_cache_key symbol period t1 ≠ get_cache_key symbol period t0 := by
    intro h
    apply hm
    have h2 := congrArg (fun k => k.2.2) h
    simpa [get_cache_key] using h2.symm
  have hbeq : (get_cache_key symbol period t1
      == get_cache_key symbol period t0) = false :=
    beq_eq_false_iff_ne.mpr hkey
  have hlk : ∀ (c : TisCache α),
      List.lookup (get_cache_key symbol period t1)
        ((get_cache_key symbol period t0, (v, t0)) :: c)
      = List.lookup (get_cache_key symbol period t1) c := by
    intro c
    simp [List.lookup, hbeq]
  constructor
  · unfold tis_lookup tis_store tis_is_cache_valid
    dsimp only
    rw [hlk]
  · unfold tis_lookup tis_store tis_is_cache_valid
    dsimp only
    rw [hlk]
    rfl

/-- Witness for C10: store at `t0 = 0`, lookup at `t1 = 120` (two minutes
later, well inside the 300-second TTL) misses. -/
theorem tis_cache_same_minute_only_witness :
    tis_lookup (tis_store ([] : TisCache ℚ) "NIFTY50" "1D" 5 0)
      "NIFTY50" "1D" 120 = none :=
  (tis_cache_same_minute_only [] "NIFTY50" "1D" 5 0 120 (by norm_num)).2

/-- C4: the classification table and the fetch-plan table disagree.
`classify_timeframe` puts `1M` in scalping (first `periods` hit) while
the `optimized_params` dict literal repeats the key `'1M'` and its last
occurrence — the one Python keeps — carries category position; likewise
`6H` is planned as intraday but classified (heuristically) as swing. -/
theorem timeframe_category_conflict :
    classify_timeframe "1M" = some Category.scalping ∧
    (get_optimized_params "1M").map OptParams.category
      = some Category.position ∧
    classify_timeframe "6H" = some Category.swing ∧
    (get_optimized_params "6H").map OptParams.category
      = some Category.intraday := by
  decide

/-- C5 (amended): `classify_timeframe` behaves as the spec's four-step
algorithm on every key whose magnitude parses as an integer wherever a
trailing M/H/D/W unit demands one: table hits return the table category,
the unit heuristics apply the stated thresholds (`none` exactly when the
magnitude fails Python `int`), a trailing Y needs no magnitude, and an
unrecognized unit defaults to swing; `5Y` and `2H` classify as claimed. -/
theorem classify_timeframe_amended (key : String) :
    (∀ c ps, timeframe_configs_periods.find?
        (fun p => p.2.contains (pyUpper key)) = some (c, ps) →
      classify_timeframe key = some c) ∧
    (timeframe_configs_periods.find?
        (fun p => p.2.contains (pyUpper key)) = none →
      ((strEndsWith (pyUpper key) 'M' = true →
          classify_timeframe key = (pyInt (strDropLast (pyUpper key))).map
            (fun minutes =>
              if minutes ≤ 15 then Category.scalping
              else if minutes ≤ 240 then Category.intraday
              else Category.swing)) ∧
       (strEndsWith (pyUpper key) 'M' = false →
        strEndsWith (pyUpper key) 'H' = true →
          classify_timeframe key = (pyInt (strDropLast (pyUpper key))).map
            (fun hours =>
              if hours ≤ 4 then Category.intraday else Category.swing)) ∧
       (strEndsWith (pyUpper key) 'M' = false →
        strEndsWith (pyUpper key) 'H' = false →
        strEndsWith (pyUpper key) 'D' = true →
          classify_timeframe key = (pyInt (strDropLast (pyUpper key))).map
            (fun days =>
              if days ≤ 7 then Category.swing else Category.position)) ∧
       (strEndsWith (pyUpper key) 'M' = false →
        strEndsWith (pyUpper key) 'H' = false →
        strEndsWith (pyUpper key) 'D' = false →
        strEndsWith (pyUpper key) 'W' = true →
          classify_timeframe key = (pyInt (strDropLast (pyUpper key))).map
            (fun weeks =>
              if weeks ≤ 4 then Category.swing else Category.position)) ∧
       (strEndsWith (pyUpper key) 'M' = false →
        strEndsWith (pyUpper key) 'H' = false →
        strEndsWith (pyUpper key) 'D' = false →
        strEndsWith (pyUpper key) 'W' = false →
        strEndsWith (pyUpper key) 'Y' = true →
          classify_timeframe key = some Category.investment) ∧
       (strEndsWith (pyUpper key) 'M' = false →
        strEndsWith (pyUpper key) 'H' = false →
        strEndsWith (pyUpper key) 'D' = false →
        strEndsWith (pyUpper key) 'W' = false →
        strEndsWith (pyUpper key) 'Y' = false →
          classify_timeframe key = some Category.swing))) ∧
    classify_timeframe "5Y" = some Category.investment ∧
    classify_timeframe "2H" = some Category.intraday := by
  refine ⟨?_, ?_, by decide, by decide⟩
  · intro c ps h
    simp only [classify_timeframe]
    rw [h]
  · intro hnone
    refine ⟨?_, ?_, ?_, ?_, ?_, ?_⟩ <;>
      · intros
        simp only [classify_timeframe]
        rw [hnone]
        simp_all

/-- Witness for C5 at the heuristic key `7H`. -/
theorem classify_timeframe_amended_witness :
    classify_timeframe "7H" = (pyInt (strDropLast (pyUpper "7H"))).map
      (fun hours => if hours ≤ 4 then Category.intraday else Category.swing) :=
  (((classify_timeframe_amended "7H").2.1 (by decide)).2.1) (by decide) (by decide)

/-- Counterexample for C5 as stated: `classify_timeframe("XM")` does not
return a category — `int("X")` raises `ValueError` before any default
can apply. -/
theorem classify_timeframe_raises :
    classify_timeframe "XM" = none := by decide

/-- C6: fewer than 10 bars yields the insufficient-data error value for
every category — the guard precedes all indicator work, so nothing can
raise. -/
theorem insufficient_data_floor (closes : List ℚ) (cat : Category)
    (h : closes.length < 10) :
    calculate_technical_indicators closes cat = CalcResult.insufficientData := by
  unfold calculate_technical_indicators
  rw [if_pos h]

/-- Witness for C6: a 5-bar series. -/
theorem insufficient_data_floor_witness :
    calculate_technical_indicators closes5 Category.scalping
      = CalcResult.insufficientData :=
  insufficient_data_floor closes5 Category.scalping (by decide)

lemma code_votes_eq_specVotes (s t m : Sig)
    (hs : s = Sig.overbought ∨ s = Sig.oversold ∨ s = Sig.neutral) :
    ((if s ≠ Sig.neutral then [s] else []) ++ [t] ++ [m]) = specVotes s t m := by
  rcases hs with h | h | h <;> subst h <;> simp [specVotes]

lemma rsiSignal_cases (ob os x : ℚ) :
    (if ob < x then Sig.overbought
     else if x < os then Sig.oversold else Sig.neutral) = Sig.overbought ∨
    (if ob < x then Sig.overbought
     else if x < os then Sig.oversold else Sig.neutral) = Sig.oversold ∨
    (if ob < x then Sig.overbought
     else if x < os then Sig.oversold else Sig.neutral) = Sig.neutral := by
  split_ifs <;> simp

/-- C9: the overall signal and its strength are synthesized from the RSI
signal (only when oversold/overbought), the SMA trend and the MACD type
exactly as the specification's vote counting describes. -/
theorem overall_signal_synthesis (closes : List ℚ) (cat : Category) :
    ∀ r, calculate_technical_indicators closes cat = CalcResult.ok r →
      r.overall_signal
        = specOverall (specVotes r.rsi_signal r.sma_trend r.macd_signal_type) ∧
      r.signal_strength
        = specStrength (specVotes r.rsi_signal r.sma_trend r.macd_signal_type) := by
  intro r hr
  unfold calculate_technical_indicators at hr
  by_cases h10 : closes.length < 10
  · rw [if_pos h10] at hr
    exact absurd hr (by simp)
  · rw [if_neg h10] at hr
    injection hr with hr
    subst hr
    dsimp only
    rcases rsiSignal_cases (indicator_params cat).rsi_overbought
        (indicator_params cat).rsi_oversold
        (rsiLatest closes (indicator_params cat).rsi_period) with h | h | h <;>
      rw [h] <;>
      simp [specVotes, specOverall, specBullishVotes, specBearishVotes,
        specStrength]

/-- Witness for C9 on the concrete ten-bar record. -/
theorem overall_signal_synthesis_witness :
    indicators10.overall_signal
      = specOverall (specVotes indicators10.rsi_signal indicators10.sma_trend
          indicators10.macd_signal_type) ∧
    indicators10.signal_strength
      = specStrength (specVotes indicators10.rsi_signal indicators10.sma_trend
          indicators10.macd_signal_type) :=
  overall_signal_synthesis closes10 Category.swing indicators10 rfl

lemma gainsList_nonneg (closes : List ℚ) : ∀ a ∈ gainsList closes, 0 ≤ a := by
  intro a ha
  simp only [gainsList, List.mem_map] at ha
  obtain ⟨o, _, rfl⟩ := ha
  cases o with
  | none => exact le_refl 0
  | some d =>
    dsimp only
    split
    · linarith
    · exact le_refl 0

lemma lossList_nonneg (closes : List ℚ) : ∀ a ∈ lossList closes, 0 ≤ a := by
  intro a ha
  simp only [lossList, List.mem_map] at ha
  obtain ⟨o, _, rfl⟩ := ha
  cases o with
  | none => exact le_refl 0
  | some d =>
    dsimp only
    split
    · linarith
    · exact le_refl 0

lemma rollingMeanAux_nonneg (w : ℕ) :
    ∀ (xs accRev : List ℚ), (∀ a ∈ accRev, 0 ≤ a) → (∀ a ∈ xs, 0 ≤ a) →
      ∀ o ∈ rollingMeanAux w accRev xs, ∀ x, o = some x → 0 ≤ x := by
  intro xs
  induction xs with
  | nil =>
    intro accRev _ _ o ho
    simp [rollingMeanAux] at ho
  | cons y rest ih =>
    intro accRev hacc hxs o ho
    rw [rollingMeanAux] at ho
    rcases List.mem_cons.mp ho with h | h
    · subst h
      intro x hx
      split at hx
      · injection hx with hx
        subst hx
        apply div_nonneg
        · apply List.sum_nonneg
          intro b hb
          have hb2 := List.mem_of_mem_take hb
          rcases List.mem_cons.mp hb2 with rfl | hb3
          · exact hxs b (by simp)
          · exact hacc b hb3
        · exact Nat.cast_nonneg w
      · exact absurd hx (by simp)
    · refine ih (y :: accRev) ?_ ?_ o h
      · intro a ha
        rcases List.mem_cons.mp ha with rfl | h2
        · exact hxs a (by simp)
        · exact hacc a h2
      · intro a ha
        exact hxs a (List.mem_cons_of_mem _ ha)

lemma rsiCell_range (g l : Option ℚ)
    (hg : ∀ x, g = some x → 0 ≤ x) (hl : ∀ x, l = some x → 0 ≤ x) :
    ∀ x, rsiCell g l = some x → 0 ≤ x ∧ x ≤ 100 := by
  intro x hx
  cases g with
  | none => exact absurd hx (by simp [rsiCell])
  | some gv =>
    cases l with
    | none => exact absurd hx (by simp [rsiCell])
    | some lv =>
      replace hx : (if lv = 0 then (if gv = 0 then none else some (100 : ℚ))
          else some (100 - 100 / (1 + gv / lv))) = some x := hx
      by_cases h0 : lv = 0
      · rw [if_pos h0] at hx
        by_cases hg0 : gv = 0
        · rw [if_pos hg0] at hx
          cases hx
        · rw [if_neg hg0] at hx
          injection hx with hx
          subst hx
          norm_num
      · rw [if_neg h0] at hx
        injection hx with hx
        subst hx
        have hgv : 0 ≤ gv := hg _ rfl
        have hlv : 0 ≤ lv := hl _ rfl
        have hlv2 : 0 < lv := lt_of_le_of_ne hlv (Ne.symm h0)
        have hrs : 0 ≤ gv / lv := div_nonneg hgv hlv2.le
        have h1 : (0 : ℚ) < 1 + gv / lv := by linarith
        have h2 : 100 / (1 + gv / lv) ≤ 100 :=
          div_le_self (by norm_num) (by linarith)
        have h3 : 0 < 100 / (1 + gv / lv) := div_pos (by norm_num) h1
        constructor <;> linarith

lemma mem_zipWith_rsiCell :
    ∀ (as bs : List (Option ℚ)) (o : Option ℚ),
      o ∈ List.zipWith rsiCell as bs →
        ∃ a b, a ∈ as ∧ b ∈ bs ∧ o = rsiCell a b := by
  intro as
  induction as with
  | nil =>
    intro bs o ho
    simp at ho
  | cons a as ih =>
    intro bs o ho
    cases bs with
    | nil => simp at ho
    | cons b bs =>
      rw [List.zipWith_cons_cons] at ho
      rcases List.mem_cons.mp ho with h | h
      · exact ⟨a, b, by simp, by simp, h⟩
      · obtain ⟨a2, b2, h1, h2, h3⟩ := ih bs o h
        exact ⟨a2, b2, List.mem_cons_of_mem _ h1, List.mem_cons_of_mem _ h2, h3⟩

lemma rsiRaw_cell_range (closes : List ℚ) (w : ℕ) :
    ∀ o ∈ rsiRaw closes w, ∀ x, o = some x → 0 ≤ x ∧ x ≤ 100 := by
  intro o ho x hx
  obtain ⟨a, b, ha, hb, rfl⟩ := mem_zipWith_rsiCell _ _ o ho
  refine rsiCell_range a b ?_ ?_ x hx
  · exact fun y hy => rollingMeanAux_nonneg w (gainsList closes) [] (by simp)
      (gainsList_nonneg closes) a ha y hy
  · exact fun y hy => rollingMeanAux_nonneg w (lossList closes) [] (by simp)
      (lossList_nonneg closes) b hb y hy

lemma rsiSeries_range (closes : List ℚ) (w : ℕ) :
    ∀ x ∈ rsiSeries closes w, 0 ≤ x ∧ x ≤ 100 := by
  intro x hx
  simp only [rsiSeries, List.mem_map] at hx
  obtain ⟨o, ho, rfl⟩ := hx
  cases o with
  | none => norm_num
  | some v => exact rsiRaw_cell_range closes w _ ho v rfl

lemma rsiLatest_range (closes : List ℚ) (w : ℕ) :
    0 ≤ rsiLatest closes w ∧ rsiLatest closes w ≤ 100 := by
  unfold rsiLatest
  rcases hgl : (rsiRaw closes w).getLast? with _ | o
  · norm_num
  · cases o with
    | none => norm_num
    | some v =>
      have hv : some v ∈ rsiRaw closes w := List.mem_of_mem_getLast? hgl
      exact rsiRaw_cell_range closes w _ hv v rfl

/-- C8: every RSI value the engine produces — the latest scalar and each
series element — lies between 0 and 100 inclusive. -/
theorem rsi_range (closes : List ℚ) (cat : Category)
    (hlen : (indicator_params cat).rsi_period + 1 ≤ closes.length)
    (hnz : ∃ i, i + 1 < closes.length ∧
      closes.getD (i + 1) 0 ≠ closes.getD i 0) :
    (∀ x, rsiLatestOf (calculate_technical_indicators closes cat) = some x →
        0 ≤ x ∧ x ≤ 100) ∧
    ∀ x, x ∈ rsiSeriesOf (calculate_technical_indicators closes cat) →
        0 ≤ x ∧ x ≤ 100 := by
  constructor
  · intro x hx
    unfold calculate_technical_indicators at hx
    by_cases h10 : closes.length < 10
    · rw [if_pos h10] at hx
      exact absurd hx (by simp [rsiLatestOf])
    · rw [if_neg h10] at hx
      simp only [rsiLatestOf] at hx
      injection hx with hx
      subst hx
      exact rsiLatest_range closes _
  · intro x hx
    unfold calculate_technical_indicators at hx
    by_cases h10 : closes.length < 10
    · rw [if_pos h10] at hx
      exact absurd hx (by simp [rsiSeriesOf])
    · rw [if_neg h10] at hx
      simp only [rsiSeriesOf] at hx
      exact rsiSeries_range closes _ x hx

/-- Witness for C8 on the concrete ten-bar series under scalping
parameters. -/
theorem rsi_range_witness :
    (∀ x, rsiLatestOf (calculate_technical_indicators closes10
        Category.scalping) = some x → 0 ≤ x ∧ x ≤ 100) ∧
    ∀ x, x ∈ rsiSeriesOf (calculate_technical_indicators closes10
        Category.scalping) → 0 ≤ x ∧ x ≤ 100 :=
  rsi_range closes10 Category.scalping (by decide) ⟨0, by decide, by decide⟩

lemma diffs_length (closes : List ℚ) : (diffs closes).length = closes.length := by
  cases closes with
  | nil => rfl
  | cons c rest => simp [diffs, List.length_zip]

lemma gainsList_length (closes : List ℚ) :
    (gainsList closes).length = closes.length := by
  simp [gainsList, diffs_length]

lemma lossList_length (closes : List ℚ) :
    (lossList closes).length = closes.length := by
  simp [lossList, diffs_length]

lemma gainsList_eq (closes : List ℚ) :
    gainsList closes = (List.range closes.length).map (specGainAt closes) := by
  cases closes with
  | nil => rfl
  | cons c rest =>
    unfold gainsList diffs
    rw [List.map_cons, List.length_cons, List.range_succ_eq_map, List.map_cons,
      List.map_map, List.map_map]
    congr 1
    apply List.ext_getElem
    · simp [List.length_zip]
    · intro j h1 h2
      simp only [List.length_map, List.length_zip] at h1
      have hj : j < rest.length := by omega
      simp only [List.getElem_map, List.getElem_zip, List.getElem_range,
        Function.comp, Nat.succ_eq_add_one]
      unfold specGainAt
      rw [if_neg (Nat.succ_ne_zero j)]
      have e1 : (c :: rest).getD (j + 1) 0 = rest[j] := by
        rw [List.getD_cons_succ, List.getD_eq_getElem _ _ hj]
      have e2 : (c :: rest).getD (j + 1 - 1) 0 = (c :: rest)[j] := by
        have : j + 1 - 1 = j := rfl
        rw [this, List.getD_eq_getElem _ _ (by simpa using Nat.lt_succ_of_lt hj)]
      rw [e1, e2]

lemma lossList_eq (closes : List ℚ) :
    lossList closes = (List.range closes.length).map (specLossAt closes) := by
  cases closes with
  | nil => rfl
  | cons c rest =>
    unfold lossList diffs
    rw [List.map_cons, List.length_cons, List.range_succ_eq_map, List.map_cons,
      List.map_map, List.map_map]
    congr 1
    apply List.ext_getElem
    · simp [List.length_zip]
    · intro j h1 h2
      simp only [List.length_map, List.length_zip] at h1
      have hj : j < rest.length := by omega
      simp only [List.getElem_map, List.getElem_zip, List.getElem_range,
        Function.comp, Nat.succ_eq_add_one]
      unfold specLossAt
      rw [if_neg (Nat.succ_ne_zero j)]
      have e1 : (c :: rest).getD (j + 1) 0 = rest[j] := by
        rw [List.getD_cons_succ, List.getD_eq_getElem _ _ hj]
      have e2 : (c :: rest).getD (j + 1 - 1) 0 = (c :: rest)[j] := by
        have : j + 1 - 1 = j := rfl
        rw [this, List.getD_eq_getElem _ _ (by simpa using Nat.lt_succ_of_lt hj)]
      rw [e1, e2]

lemma rollingMeanAux_eq (w : ℕ) :
    ∀ (xs accRev : List ℚ),
      rollingMeanAux w accRev xs =
        (List.range xs.length).map (fun i =>
          if w ≤ accRev.length + (i + 1) then
            some ((((accRev.reverse ++ xs).take (accRev.length + (i + 1))).drop
              (accRev.length + (i + 1) - w)).sum / w)
          else none) := by
  intro xs
  induction xs with
  | nil =>
    intro accRev
    simp [rollingMeanAux]
  | cons y rest ih =>
    intro accRev
    rw [rollingMeanAux, ih (y :: accRev)]
    have hr : List.range (y :: rest).length = List.range (rest.length + 1) := by
      rw [List.length_cons]
    rw [hr, List.range_succ_eq_map, List.map_cons, List.map_map]
    congr 1
    · have htk : (accRev.reverse ++ y :: rest).take (accRev.length + (0 + 1))
          = (y :: accRev).reverse := by
        have h1 : accRev.length + (0 + 1) = accRev.reverse.length + 1 := by
          simp
        rw [h1, List.take_append]
        simp
      by_cases hw : w ≤ accRev.length + 1
      · rw [if_pos (by simpa using hw), if_pos (by simpa using hw), htk]
        congr 1
        have hsum : ((y :: accRev).take w).sum
            = ((y :: accRev).reverse.drop ((y :: accRev).length - w)).sum := by
          rw [← List.sum_reverse (((y :: accRev).take w)), List.reverse_take]
        rw [hsum]
        congr 2
      · rw [if_neg (by simpa using hw), if_neg (by simpa using hw)]
    · apply List.map_congr_left
      intro i _
      have e1 : (y :: accRev).reverse ++ rest = accRev.reverse ++ y :: rest := by
        simp
      have e2 : ∀ q : List ℚ, (y :: q).length + (i + 1)
          = q.length + (i + 1 + 1) := by
        intro q
        simp
        omega
      show (if w ≤ (y :: accRev).length + (i + 1) then
          some (((((y :: accRev).reverse ++ rest).take
                ((y :: accRev).length + (i + 1))).drop
              ((y :: accRev).length + (i + 1) - w)).sum / w)
        else none)
        = (if w ≤ accRev.length + (i.succ + 1) then
          some ((((accRev.reverse ++ y :: rest).take
                (accRev.length + (i.succ + 1))).drop
              (accRev.length + (i.succ + 1) - w)).sum / w)
        else none)
      rw [e1, e2, Nat.succ_eq_add_one]

lemma rollingMean_eq (w : ℕ) (xs : List ℚ) :
    rollingMean w xs = (List.range xs.length).map (fun i =>
      if w ≤ i + 1 then
        some (((xs.take (i + 1)).drop (i + 1 - w)).sum / w)
      else none) := by
  unfold rollingMean
  rw [rollingMeanAux_eq]
  simp

lemma slice_eq_range_map (l : List ℚ) (i w : ℕ) (hw : w ≤ i + 1)
    (hi : i < l.length) :
    (l.take (i + 1)).drop (i + 1 - w)
      = (List.range w).map (fun p => l.getD (i + 1 - w + p) 0) := by
  apply List.ext_getElem
  · simp [List.length_drop, List.length_take]
    omega
  · intro p h1 h2
    simp only [List.length_drop, List.length_take] at h1
    have hp : p < w := by
      simp only [List.length_map, List.length_range] at h2
      exact h2
    simp only [List.getElem_drop, List.getElem_take, List.getElem_map,
      List.getElem_range]
    rw [List.getD_eq_getElem _ _ (by omega)]

lemma window_sum_eq (l : List ℚ) (F : ℕ → ℚ)
    (hF : ∀ k, k < l.length → l.getD k 0 = F k)
    (i w : ℕ) (hw : w ≤ i + 1) (hi : i < l.length) :
    ((l.take (i + 1)).drop (i + 1 - w)).sum
      = ((List.range w).map (fun j => F (i - j))).sum := by
  rw [slice_eq_range_map l i w hw hi]
  show (∑ p in Finset.range w, l.getD (i + 1 - w + p) 0)
    = ∑ j in Finset.range w, F (i - j)
  rw [← Finset.sum_range_reflect (fun j => F (i - j)) w]
  apply Finset.sum_congr rfl
  intro p hp
  rw [Finset.mem_range] at hp
  rw [hF _ (by omega)]
  congr 1
  omega

lemma getD_range_map (F : ℕ → ℚ) (n k : ℕ) (hk : k < n) :
    ((List.range n).map F).getD k 0 = F k := by
  rw [List.getD_eq_getElem _ _ (by simpa using hk)]
  simp

/-- C7 (amended): the engine's RSI is the simple-rolling-mean (Cutler)
form, cell for cell: at every index the gain and loss averages are plain
arithmetic means over the trailing `w`-bar window (the first bar's
undefined delta counting as zero), not Wilder's recursive smoothing. -/
theorem rsi_is_simple_rolling_mean (closes : List ℚ) (w : ℕ) :
    rsiRaw closes w = specRsiSeries closes w := by
  unfold rsiRaw specRsiSeries
  rw [rollingMean_eq, rollingMean_eq, gainsList_length, lossList_length,
    List.zipWith_map, List.zipWith_same]
  apply List.map_congr_left
  intro i hi
  rw [List.mem_range] at hi
  dsimp only
  by_cases hw : w ≤ i + 1
  · rw [if_pos hw, if_pos hw]
    have hg : (((gainsList closes).take (i + 1)).drop (i + 1 - w)).sum
        = ((List.range w).map (fun j => specGainAt closes (i - j))).sum := by
      refine window_sum_eq _ _ ?_ i w hw (by rwa [gainsList_length])
      intro k hk
      rw [gainsList_length] at hk
      rw [gainsList_eq]
      exact getD_range_map _ _ _ hk
    have hl : (((lossList closes).take (i + 1)).drop (i + 1 - w)).sum
        = ((List.range w).map (fun j => specLossAt closes (i - j))).sum := by
      refine window_sum_eq _ _ ?_ i w hw (by rwa [lossList_length])
      intro k hk
      rw [lossList_length] at hk
      rw [lossList_eq]
      exact getD_range_map _ _ _ hk
    rw [hg, hl]
    unfold specRsiAt specAvgAt
    rw [if_pos hw, if_pos hw]
    rfl
  · rw [if_neg hw, if_neg hw]
    unfold specRsiAt specAvgAt
    rw [if_neg hw, if_neg hw]
    rfl

/-- Counterexample for C7 as stated: on a concrete ten-bar series with
the scalping period `w = 7`, the engine's latest RSI (simple rolling
means: `450/7 ≈ 64.29`) differs from the Wilder-style recursive value
the claim prescribes (`10300/151 ≈ 68.21`). -/
theorem rsi_not_wilder :
    rsiLatestOf (calculate_technical_indicators closes10 Category.scalping)
        = some (450 / 7) ∧
    wilderRsiLatest closes10 7 = some (10300 / 151) ∧
    (450 / 7 : ℚ) ≠ 10300 / 151 := by
  refine ⟨?_, ?_, by norm_num⟩
  · have h1 : rsiLatestOf (calculate_technical_indicators closes10
        Category.scalping) = some (rsiLatest closes10 7) := by
      unfold calculate_technical_indicators
      rw [if_neg (by decide)]
      rfl
    rw [h1]
    norm_num [rsiLatest, rsiRaw, rollingMean, rollingMeanAux, gainsList,
      lossList, diffs, rsiCell, closes10, List.zipWith]
  · norm_num [wilderRsiLatest, closes10]
